import Mathlib

/-!
Verification of the agriAI soil-advisory kernel (src/app.py).

The domain kernel consists of:
* `calculate_score` (app.py lines 43-50): the soil-health score;
* `fertilizer_advice` (app.py lines 52-53): the two-outcome advisory string;
* the `SoilReport` store (app.py lines 26-38, 145-154, 214-216): an
  append-only SQLite table with an auto-assigned integer primary key,
  queried by `get_history` as `order_by(id desc).limit(5)`.

Python floats appearing in the score function are embedded as rationals:
the only float operations are order comparisons against the constants
`8` and `5.5`, both exactly representable, so float and rational
comparison agree on every representable input.  Nutrient levels are
plain Python strings (`"Low"`, `"Medium"`, `"High"`) compared with `==`,
embedded as `String` with decidable equality.  Python ints are embedded
as `Int` (they cannot overflow).
-/

namespace AgriAI

/-- Embedding of `calculate_score` (app.py lines 43-50).  The Python body
mutates a local `score`, starting at 100, subtracting for each condition
in order, and returns `max(score, 0)`; the sequential subtractions are
rendered as a chain of `let` rebindings. -/
def calculate_score (ph : ℚ) (nitrogen phosphorus potassium organic : String) : Int :=
  let score : Int := 100
  let score := if ph > 8 ∨ ph < 5.5 then score - 15 else score
  let score := if nitrogen = "Low" then score - 20 else score
  let score := if phosphorus = "Low" then score - 15 else score
  let score := if potassium = "Low" then score - 15 else score
  let score := if organic = "Low" then score - 20 else score
  max score 0

/-- Embedding of `fertilizer_advice` (app.py lines 52-53): a conditional
expression on `nitrogen == "Low"` between two fixed Hindi strings. -/
def fertilizer_advice (nitrogen : String) : String :=
  if nitrogen = "Low" then "यूरिया 45-50 kg प्रति एकड़ डालें।" else "नाइट्रोजन संतुलित है।"

/-- The spec's reference definition of `computeScore` (spec §4.1), written
as independent flat deductions summed and clamped at zero.  The spec's
threshold `8.0` is the rational `8`. -/
def computeScore_spec (ph : ℚ) (nitrogen phosphorus potassium organic : String) : Int :=
  max (100
    - (if ph > 8 ∨ ph < 5.5 then 15 else 0)
    - (if nitrogen = "Low" then 20 else 0)
    - (if phosphorus = "Low" then 15 else 0)
    - (if potassium = "Low" then 15 else 0)
    - (if organic = "Low" then 20 else 0)) 0

/-- A level value is valid when it is one of the three enumerated strings
offered by the input form (app.py lines 133-136). -/
def isLevel (s : String) : Prop := s = "Low" ∨ s = "Medium" ∨ s = "High"

instance (s : String) : Decidable (isLevel s) := by
  unfold isLevel
  infer_instance

/-!
The ReportStore.  `SoilReport` (app.py lines 26-34) is a SQLite-backed
table whose rows carry an integer primary key `id` plus the sample
fields.  The insert block (app.py lines 145-154) constructs a row
without an id and commits it; SQLite assigns the new row an `INTEGER
PRIMARY KEY` equal to one more than the largest id currently in the
table (there are no deletes in this application, so that is one more
than the largest ever assigned).  `get_history` (app.py lines 214-216)
runs `query(SoilReport).order_by(SoilReport.id.desc()).limit(5).all()`:
sort the rows by descending id and return at most the first 5.  The
limit is a parameter of the underlying query operator, fixed to 5 at
this call site, so the query is embedded with the limit as an argument
(`recentReports`) and `get_history` as its instantiation at 5.
-/

/-- A persisted row of the `soil_reports` table (app.py lines 26-34). -/
structure SoilReport where
  id : Int
  farmer_name : String
  ph : ℚ
  nitrogen : String
  phosphorus : String
  potassium : String
  organic_carbon : String
deriving DecidableEq

/-- The field values supplied by the caller at insertion time (app.py
lines 145-152): everything except the id, which the store assigns. -/
structure ReportData where
  farmer_name : String
  ph : ℚ
  nitrogen : String
  phosphorus : String
  potassium : String
  organic_carbon : String
deriving DecidableEq

/-- The store state: the rows of the table in insertion order. -/
structure Store where
  records : List SoilReport
deriving DecidableEq

/-- Largest id present in a list of rows (0 when empty; SQLite rowids of
this table start at 1). -/
def maxIdList : List SoilReport → Int
  | [] => 0
  | r :: rs => max r.id (maxIdList rs)

/-- Largest id present in the store. -/
def maxId (s : Store) : Int := maxIdList s.records

/-- SQLite assigns a freshly inserted row the id `max + 1`. -/
def nextId (s : Store) : Int := maxId s + 1

/-- Embedding of the insert block (app.py lines 145-154): build the row,
let the store assign its id, append it.  Returns the new store and the
persisted row. -/
def insertReport (s : Store) (d : ReportData) : Store × SoilReport :=
  let r : SoilReport :=
    ⟨nextId s, d.farmer_name, d.ph, d.nitrogen, d.phosphorus, d.potassium,
      d.organic_carbon⟩
  (⟨s.records ++ [r]⟩, r)

/-- The ordering used by `order_by(SoilReport.id.desc())`: descending
ids. -/
def idDesc (a b : SoilReport) : Prop := b.id ≤ a.id

instance : DecidableRel idDesc := fun a b => inferInstanceAs (Decidable (b.id ≤ a.id))

instance : IsTotal SoilReport idDesc := ⟨fun a b => le_total b.id a.id⟩

instance : IsTrans SoilReport idDesc := ⟨fun _ _ _ h1 h2 => le_trans h2 h1⟩

/-- Embedding of the history query, with the SQL `LIMIT` as a parameter:
order the table's rows by descending id and return at most the first
`n`. -/
def recentReports (s : Store) (n : Nat) : List SoilReport :=
  (List.insertionSort idDesc s.records).take n

/-- The query as an operation on the store: it returns its result and
leaves the store state as it was (reads do not mutate). -/
def recentReportsOp (s : Store) (n : Nat) : List SoilReport × Store :=
  (recentReports s n, s)

/-- Embedding of `get_history` (app.py lines 214-216): the history query
at the call site's fixed limit of 5. -/
def get_history (s : Store) : List SoilReport := recentReports s 5

/-- Store states reachable by the application: the empty table (freshly
created by `Base.metadata.create_all`) followed by inserts only — the
application never updates or deletes rows. -/
inductive Reachable : Store → Prop
  | empty : Reachable ⟨[]⟩
  | step (s : Store) (d : ReportData) : Reachable s → Reachable (insertReport s d).1

/-- A concrete submission, used to instantiate the store theorems. -/
def sampleData : ReportData := ⟨"Ravi", 7, "Medium", "Medium", "Medium", "Medium"⟩

/-- A second concrete submission. -/
def sampleData2 : ReportData := ⟨"Sita", 9, "Low", "Low", "Low", "Low"⟩

/-- The store after inserting `sampleData` into the empty store. -/
def sampleStore1 : Store := (insertReport ⟨[]⟩ sampleData).1

/-- The store after inserting `sampleData2` into `sampleStore1`. -/
def sampleStore2 : Store := (insertReport sampleStore1 sampleData2).1

theorem mem_le_maxIdList {r : SoilReport} : ∀ {l : List SoilReport}, r ∈ l → r.id ≤ maxIdList l
  | _ :: _, h => by
    rcases List.mem_cons.mp h with h | h
    · subst h
      exact le_max_left _ _
    · exact le_trans (mem_le_maxIdList h) (le_max_right _ _)

/-- In any reachable store the rows appear in strictly increasing id
order (each insert's id exceeds every id already present). -/
theorem reachable_ids_increasing {s : Store} (hs : Reachable s) :
    List.Pairwise (fun a b : SoilReport => a.id < b.id) s.records := by
  induction hs with
  | empty => exact List.Pairwise.nil
  | step s d _ ih =>
    simp only [insertReport]
    rw [List.pairwise_append]
    refine ⟨ih, List.pairwise_singleton _ _, ?_⟩
    intro a ha b hb
    rw [List.mem_singleton] at hb
    subst hb
    exact lt_of_le_of_lt (mem_le_maxIdList ha) (lt_add_one _)

/-- In any reachable store the ids are pairwise distinct. -/
theorem reachable_ids_nodup {s : Store} (hs : Reachable s) :
    (s.records.map SoilReport.id).Nodup := by
  have h := (reachable_ids_increasing hs).imp (fun h => ne_of_lt h)
  exact List.pairwise_map.mpr h

/-- The head of the descending sort of `l ++ [r]` is `r` whenever the id
of `r` exceeds every id occurring in `l`. -/
theorem sort_desc_append_max (l : List SoilReport) (r : SoilReport)
    (hgt : ∀ x ∈ l, x.id < r.id) :
    (List.insertionSort idDesc (l ++ [r])).take 1 = [r] := by
  have hperm := List.perm_insertionSort idDesc (l ++ [r])
  have hsorted := List.sorted_insertionSort idDesc (l ++ [r])
  cases ht : List.insertionSort idDesc (l ++ [r]) with
  | nil =>
    rw [ht] at hperm
    have := hperm.length_eq
    simp at this
  | cons a tl =>
    rw [ht] at hperm hsorted
    have ha : a ∈ l ++ [r] := hperm.mem_iff.mp (List.mem_cons_self a tl)
    have hrmem : r ∈ a :: tl :=
      hperm.mem_iff.mpr (List.mem_append.mpr (Or.inr (List.mem_singleton_self r)))
    have hle : r.id ≤ a.id := by
      rcases List.mem_cons.mp hrmem with he | htl
      · exact le_of_eq (congrArg SoilReport.id he)
      · exact List.rel_of_sorted_cons hsorted r htl
    have haeq : a = r := by
      rcases List.mem_append.mp ha with hl | hr1
      · exact absurd hle (not_le.mpr (hgt a hl))
      · exact List.mem_singleton.mp hr1
    rw [haeq]
    rfl

/-- C1: for every sample, `calculate_score` equals the spec's reference
definition: start at 100; deduct 15 when the pH is strictly outside
(5.5, 8]-complement band `ph > 8 ∨ ph < 5.5`; deduct 20, 15, 15, 20 for
nitrogen, phosphorus, potassium, organic carbon equal to `"Low"`; clamp
at zero. -/
theorem calculate_score_eq_spec (ph : ℚ) (n p k o : String) :
    calculate_score ph n p k o = computeScore_spec ph n p k o := by
  simp only [calculate_score, computeScore_spec]
  split_ifs <;> rfl

/-- C2: for every valid sample (pH in [0, 14], every level one of
`"Low"`, `"Medium"`, `"High"`), the score is an integer in [0, 100]. -/
theorem calculate_score_in_range (ph : ℚ) (n p k o : String)
    (hph : 0 ≤ ph ∧ ph ≤ 14)
    (hn : isLevel n) (hp : isLevel p) (hk : isLevel k) (ho : isLevel o) :
    0 ≤ calculate_score ph n p k o ∧ calculate_score ph n p k o ≤ 100 := by
  simp only [calculate_score]
  split_ifs <;> omega

/-- Witness for C2 at the concrete valid sample pH = 7, all levels
`"Medium"`. -/
theorem calculate_score_in_range_witness :
    0 ≤ calculate_score 7 "Medium" "Medium" "Medium" "Medium" ∧
      calculate_score 7 "Medium" "Medium" "Medium" "Medium" ≤ 100 :=
  calculate_score_in_range 7 "Medium" "Medium" "Medium" "Medium"
    (by exact ⟨by decide, by decide⟩)
    (Or.inr (Or.inl rfl)) (Or.inr (Or.inl rfl)) (Or.inr (Or.inl rfl))
    (Or.inr (Or.inl rfl))

/-- C3 counterexample: at pH = 9 with all four nutrient levels `"Low"`,
`calculate_score` returns 15, not 0 as the claim states
(100 − 15 − 20 − 15 − 15 − 20 = 15, and the floor at zero is not
reached). -/
theorem calculate_score_all_low_ne_zero :
    calculate_score 9 "Low" "Low" "Low" "Low" ≠ 0 := by
  decide

/-- C3 amended: `computeScore` applied to the sample pH = 9, nitrogen =
Low, phosphorus = Low, potassium = Low, organicCarbon = Low returns 15. -/
theorem calculate_score_all_low_eq_15 :
    calculate_score 9 "Low" "Low" "Low" "Low" = 15 := by
  decide

/-- C4: `fertilizer_advice` is a pure two-outcome function of the
nitrogen level: it returns the fixed urea message exactly on `"Low"`,
and the fixed balanced message on every other value, so `"Medium"` and
`"High"` yield the identical output (being a function, the same input
always yields the same output). -/
theorem fertilizer_advice_two_outcomes :
    fertilizer_advice "Low" = "यूरिया 45-50 kg प्रति एकड़ डालें।" ∧
      (∀ n : String, n ≠ "Low" → fertilizer_advice n = "नाइट्रोजन संतुलित है।") ∧
      fertilizer_advice "Medium" = fertilizer_advice "High" := by
  refine ⟨rfl, ?_, rfl⟩
  intro n hn
  simp only [fertilizer_advice, if_neg hn]

/-- Witness for C4: the non-Low clause applied at `"Medium"`. -/
theorem fertilizer_advice_two_outcomes_witness :
    fertilizer_advice "Medium" = "नाइट्रोजन संतुलित है।" :=
  fertilizer_advice_two_outcomes.2.1 "Medium" (by decide)

/-- C9: both functions are total over arbitrary strings for the level
arguments, and any string other than the exact `"Low"` (such as
`"low"`, `""`, `"Banana"`) is treated as not-Low: no deduction in the
score, the balanced message from the advisory.  With all four levels
non-Low the score is fully determined by the pH alone. -/
theorem non_low_strings_treated_as_not_low (ph : ℚ) (n p k o : String)
    (hn : n ≠ "Low") (hp : p ≠ "Low") (hk : k ≠ "Low") (ho : o ≠ "Low") :
    calculate_score ph n p k o = (if ph > 8 ∨ ph < 5.5 then 85 else 100) ∧
      fertilizer_advice n = "नाइट्रोजन संतुलित है।" := by
  constructor
  · simp only [calculate_score, if_neg hn, if_neg hp, if_neg hk, if_neg ho]
    split_ifs <;> rfl
  · simp only [fertilizer_advice, if_neg hn]

/-- Witness for C9 at the out-of-enum strings `"low"`, `""`, `"Banana"`,
`"LOW"` with pH = 9 (out of band, so the score is 85). -/
theorem non_low_strings_treated_as_not_low_witness :
    calculate_score 9 "low" "" "Banana" "LOW" =
        (if (9 : ℚ) > 8 ∨ (9 : ℚ) < 5.5 then 85 else 100) ∧
      fertilizer_advice "low" = "नाइट्रोजन संतुलित है।" :=
  non_low_strings_treated_as_not_low 9 "low" "" "Banana" "LOW"
    (by decide) (by decide) (by decide) (by decide)

/-- C10: for every valid sample (levels in the enumeration, any rational
pH), the score is at least 15: the five penalties total at most 85, so
the floor-at-zero clamp is never reached on valid input. -/
theorem calculate_score_ge_15 (ph : ℚ) (n p k o : String)
    (hn : isLevel n) (hp : isLevel p) (hk : isLevel k) (ho : isLevel o) :
    15 ≤ calculate_score ph n p k o := by
  simp only [calculate_score]
  split_ifs <;> omega

/-- Witness for C10 at the maximally penalized sample: pH = 9 (out of
band), all levels `"Low"`. -/
theorem calculate_score_ge_15_witness :
    15 ≤ calculate_score 9 "Low" "Low" "Low" "Low" :=
  calculate_score_ge_15 9 "Low" "Low" "Low" "Low"
    (Or.inl rfl) (Or.inl rfl) (Or.inl rfl) (Or.inl rfl)

/-- C5: for every reachable store state and every limit `n`, the history
query returns at most `n` records and at most the total number of
inserted records, ordered strictly by descending id; when at most `n`
records exist it returns all of them (as a permutation, i.e. without
error or loss), and the operation leaves the store state unchanged. -/
theorem recentReports_spec (s : Store) (n : Nat) (hs : Reachable s) :
    (recentReports s n).length ≤ n ∧
      (recentReports s n).length ≤ s.records.length ∧
      List.Pairwise (fun a b : SoilReport => b.id < a.id) (recentReports s n) ∧
      (s.records.length ≤ n → (recentReports s n).Perm s.records) ∧
      (recentReportsOp s n).2 = s := by
  have hperm := List.perm_insertionSort idDesc s.records
  have hsorted : List.Pairwise idDesc (List.insertionSort idDesc s.records) :=
    List.sorted_insertionSort idDesc s.records
  refine ⟨?_, ?_, ?_, ?_, rfl⟩
  · rw [recentReports, List.length_take]
    exact min_le_left _ _
  · rw [recentReports, List.length_take]
    exact le_trans (min_le_right _ _) (le_of_eq hperm.length_eq)
  · have hnodup : ((List.insertionSort idDesc s.records).map SoilReport.id).Nodup :=
      ((hperm.map SoilReport.id).nodup_iff).mpr (reachable_ids_nodup hs)
    have hne := List.pairwise_map.mp hnodup
    have hstrict := (hsorted.and hne).imp
      (fun h => lt_of_le_of_ne h.1 (Ne.symm h.2))
    exact hstrict.sublist (List.take_sublist n _)
  · intro hlen
    have hlen2 : (List.insertionSort idDesc s.records).length ≤ n :=
      le_trans (le_of_eq hperm.length_eq) hlen
    rw [recentReports, List.take_of_length_le hlen2]
    exact hperm

/-- Witness for C5: the store holding two inserted reports, queried at
the call site's limit of 5. -/
theorem recentReports_spec_witness :
    (recentReports sampleStore2 5).length ≤ 5 ∧
      (recentReports sampleStore2 5).length ≤ sampleStore2.records.length ∧
      List.Pairwise (fun a b : SoilReport => b.id < a.id) (recentReports sampleStore2 5) ∧
      (sampleStore2.records.length ≤ 5 →
        (recentReports sampleStore2 5).Perm sampleStore2.records) ∧
      (recentReportsOp sampleStore2 5).2 = sampleStore2 :=
  recentReports_spec sampleStore2 5
    (Reachable.step sampleStore1 sampleData2
      (Reachable.step ⟨[]⟩ sampleData Reachable.empty))

/-- C6: an insert assigns the new record an id strictly greater than the
id of every record already in the store (the store is insert-only, so
these are exactly the previously assigned ids), and after the insert the
ids across the store's whole history remain pairwise distinct. -/
theorem insert_id_strictly_greater (s : Store) (d : ReportData) (hs : Reachable s)
    (r : SoilReport) (hr : r ∈ s.records) :
    r.id < ((insertReport s d).2).id ∧
      ((insertReport s d).1.records.map SoilReport.id).Nodup := by
  constructor
  · exact lt_of_le_of_lt (mem_le_maxIdList hr) (lt_add_one _)
  · exact reachable_ids_nodup (Reachable.step s d hs)

/-- Witness for C6: the record of `sampleStore1` (id 1) against a second
insert, which receives id 2. -/
theorem insert_id_strictly_greater_witness :
    (⟨1, "Ravi", 7, "Medium", "Medium", "Medium", "Medium"⟩ : SoilReport).id <
        ((insertReport sampleStore1 sampleData2).2).id ∧
      ((insertReport sampleStore1 sampleData2).1.records.map SoilReport.id).Nodup :=
  insert_id_strictly_greater sampleStore1 sampleData2
    (Reachable.step ⟨[]⟩ sampleData Reachable.empty)
    ⟨1, "Ravi", 7, "Medium", "Medium", "Medium", "Medium"⟩ (by decide)

/-- C7: for every store state, inserting a record and immediately
querying the most recent one report returns exactly the one-element
sequence holding the just-inserted record. -/
theorem insert_then_recent_one (s : Store) (d : ReportData) :
    recentReports (insertReport s d).1 1 = [(insertReport s d).2] := by
  simp only [recentReports, insertReport]
  apply sort_desc_append_max
  intro x hx
  exact lt_of_le_of_lt (mem_le_maxIdList hx) (lt_add_one _)

end AgriAI
